import Mathlib

/-!  Shallow embedding of the SmartSales365 promotion pricing and checkout
settlement engine (backend/catalog/promotion_service.py,
backend/catalog/models.py, backend/orders/models.py,
backend/orders/serializers.py, backend/orders/services.py).
Monetary amounts are exact rationals standing for Python Decimal values;
quantities and stock are naturals. -/

/-- Banker's rounding of a rational to an integer: the rounding mode that
Python Decimal.quantize uses by default (ROUND_HALF_EVEN). -/
def roundHalfEven (x : ℚ) : ℤ :=
  let n : ℤ := ⌊x⌋
  let f : ℚ := x - (n : ℚ)
  if f < 1 / 2 then n
  else if 1 / 2 < f then n + 1
  else if n % 2 = 0 then n else n + 1

/-- Decimal.quantize to two decimal places (cents), half-even. -/
def quantize2 (x : ℚ) : ℚ := (roundHalfEven (x * 100) : ℚ) / 100

/-- A rational that is a whole number of cents, as the DecimalField columns
with decimal_places 2 store. -/
def TwoDecimal (x : ℚ) : Prop := ∃ n : ℤ, x = (n : ℚ) / 100

/-- Promotion.DiscountType (backend/catalog/models.py). -/
inductive DiscountType
  | PERCENT
  | AMOUNT
deriving DecidableEq, Repr

/-- Promotion.Scope (backend/catalog/models.py). -/
inductive Scope
  | GLOBAL
  | CATEGORY
  | PRODUCT
deriving DecidableEq, Repr

/-- Promotion row: discount type and value, scope, and the many-to-many
category/product id sets attached to the scope (backend/catalog/models.py).
Validity window and active flag are resolved by the fetch in
build_promotion_pricing_map; the lists modelled here are the fetched,
currently-valid promotions. -/
structure Promotion where
  pid : Nat
  discount_type : DiscountType
  discount_value : ℚ
  scope : Scope
  categories : List Nat
  products : List Nat
deriving DecidableEq, Repr

/-- Product row: id, category, name, unit price, stock, active flag
(backend/catalog/models.py). -/
structure Product where
  pid : Nat
  category_id : Option Nat
  name : String
  price : ℚ
  stock : Nat
  is_active : Bool
deriving DecidableEq, Repr

/-- PromotionPricing dataclass (backend/catalog/promotion_service.py). -/
structure PromotionPricing where
  promotion : Promotion
  discount_per_unit : ℚ
  final_price : ℚ
deriving DecidableEq, Repr

/-- The function _calculate_discount of backend/catalog/promotion_service.py:
zero for a non-positive unit price; PERCENT takes unit_price * value / 100,
AMOUNT takes the value itself; the result is clamped into [0, unit_price]
and quantized to cents. -/
def _calculate_discount (unit_price : ℚ) (promotion : Promotion) : ℚ :=
  if unit_price ≤ 0 then 0
  else
    let value := promotion.discount_value
    let raw := if promotion.discount_type = DiscountType.PERCENT
      then unit_price * value / 100
      else value
    let nonneg := if raw < 0 then 0 else raw
    let clamped := if unit_price < nonneg then unit_price else nonneg
    quantize2 clamped

/-- The scope_priority table inside _select_best_promotion: PRODUCT beats
CATEGORY beats GLOBAL, smaller is more specific. -/
def scope_priority : Scope → Nat
  | Scope.PRODUCT => 0
  | Scope.CATEGORY => 1
  | Scope.GLOBAL => 2

/-- One iteration of the loop body of _select_best_promotion: skip a
candidate with non-positive discount, otherwise replace the running best
when the new discount is strictly larger, or equal with a strictly more
specific scope. -/
def selectStep (unit_price : ℚ) (best : Option PromotionPricing)
    (promotion : Promotion) : Option PromotionPricing :=
  let discount := _calculate_discount unit_price promotion
  if discount ≤ 0 then best
  else
    let pricing : PromotionPricing :=
      ⟨promotion, discount, unit_price - discount⟩
    match best with
    | none => some pricing
    | some b =>
      if b.discount_per_unit < pricing.discount_per_unit then some pricing
      else if pricing.discount_per_unit = b.discount_per_unit ∧
          scope_priority promotion.scope < scope_priority b.promotion.scope then
        some pricing
      else some b

/-- The function _select_best_promotion of
backend/catalog/promotion_service.py as a fold of selectStep over the
candidate list. -/
def _select_best_promotion (product : Product) (candidates : List Promotion) :
    Option PromotionPricing :=
  candidates.foldl (selectStep product.price) none

/-- Candidate promotions for one product, as assembled by
build_promotion_pricing_map from the partition of _gather_candidates:
the GLOBAL promotions, then those CATEGORY promotions listing the product's
category, then those PRODUCT promotions listing the product, in fetch
order within each group. -/
def candidatesFor (promotions : List Promotion) (product : Product) :
    List Promotion :=
  promotions.filter (fun pr => pr.scope = Scope.GLOBAL)
    ++ promotions.filter (fun pr => pr.scope = Scope.CATEGORY &&
        match product.category_id with
        | some c => pr.categories.contains c
        | none => false)
    ++ promotions.filter (fun pr => pr.scope = Scope.PRODUCT &&
        pr.products.contains product.pid)

/-- PromotionPricingEngine.get via build_promotion_pricing_map: the best
promotion for the product among its candidates. -/
def pricingFor (promotions : List Promotion) (product : Product) :
    Option PromotionPricing :=
  _select_best_promotion product (candidatesFor promotions product)

/-- Order.Status (backend/orders/models.py). -/
inductive OrderStatus
  | PENDING_PAYMENT
  | PAID
  | FAILED
  | CANCELED
deriving DecidableEq, Repr

/-- Order.FulfillmentStatus (backend/orders/models.py). -/
inductive FulfillmentStatus
  | PENDING
  | PROCESSING
  | IN_TRANSIT
  | DELIVERED
deriving DecidableEq, Repr

/-- Order row, restricted to the fields the settlement and checkout logic
reads or writes: statuses, owner presence (order.user set or not), the
monetary breakdown, the stored payment-intent id, receipt url and the
paid_at stamp (modelled as a flag recording whether it was set). -/
structure Order where
  status : OrderStatus
  fulfillment_status : FulfillmentStatus
  has_user : Bool
  subtotal_amount : ℚ
  tax_amount : ℚ
  shipping_amount : ℚ
  discount_amount : ℚ
  total_amount : ℚ
  stripe_payment_intent_id : String
  receipt_url : String
  paid_at_set : Bool
deriving DecidableEq, Repr

/-- Order.mark_as_paid (backend/orders/models.py): set status PAID, promote
fulfillment PENDING to PROCESSING, stamp paid_at, store the receipt url when
one is given. -/
def mark_as_paid (receipt_url : Option String) (o : Order) : Order :=
  { o with
    status := OrderStatus.PAID
    fulfillment_status :=
      if o.fulfillment_status = FulfillmentStatus.PENDING
      then FulfillmentStatus.PROCESSING else o.fulfillment_status
    paid_at_set := true
    receipt_url :=
      match receipt_url with
      | some r => r
      | none => o.receipt_url }

/-- Order.mark_as_failed (backend/orders/models.py). -/
def mark_as_failed (o : Order) : Order :=
  { o with status := OrderStatus.FAILED }

/-- OrderItem row, restricted to the fields settlement and the checkout
totals read: product reference, snapshot prices and quantity. -/
structure OrderItem where
  product_id : Nat
  product_name : String
  unit_price : ℚ
  quantity : Nat
  total_price : ℚ
  discount_amount : ℚ
deriving DecidableEq, Repr

/-- OrderPayment row (backend/orders/models.py), keyed by the order (implicit
here: a SettlementState holds one order's rows) and the intent id. -/
structure OrderPayment where
  stripe_payment_intent_id : String
  status : String
  amount : ℚ
  currency : String
  receipt_url : String
deriving DecidableEq, Repr

/-- The stripe.PaymentIntent fields that the settlement code reads: id,
status, amounts in minor units, currency and the receipt url that
extract_receipt_url resolves from the charge data. -/
structure PaymentIntent where
  intent_id : String
  status : String
  amount : ℤ
  amount_received : Option ℤ
  currency : String
  receipt_url : Option String
deriving DecidableEq, Repr

/-- The database state a settlement touches: one order, its items, the
product rows, and the order's OrderPayment rows. -/
structure SettlementState where
  order : Order
  items : List OrderItem
  products : List Product
  payments : List OrderPayment
deriving DecidableEq, Repr

/-- Outcome of CheckoutConfirmSerializer.save: success, the retryable
still-processing ValidationError, the ValidationError after marking the
order FAILED, or the insufficient-stock ValidationError raised inside the
atomic block. -/
inductive ConfirmOutcome
  | ok
  | retryable
  | paymentFailed
  | insufficientStock
deriving DecidableEq, Repr

/-- Result of one synchronous confirm call: the database state after the
call (transaction rollback already applied) and what the caller saw,
together with which push notifications were sent. -/
structure ConfirmResult where
  state : SettlementState
  outcome : ConfirmOutcome
  notified_failure : Bool
  notified_success : Bool
deriving DecidableEq, Repr

/-- The dict comprehension building product_quantities in
CheckoutConfirmSerializer.save: the quantity of the last item naming the
product, none when no item names it. -/
def lookupQuantity (items : List OrderItem) (pid : Nat) : Option Nat :=
  items.foldl
    (fun acc item => if item.product_id = pid then some item.quantity else acc)
    none

/-- The select_for_update loop of CheckoutConfirmSerializer.save over the
product rows named by the order's items: verify stock ≥ quantity for each
and decrement, none when some row falls short (the raise that rolls the
transaction back). Rows no item names pass through unchanged. -/
def applyStockDecrements (items : List OrderItem) :
    List Product → Option (List Product)
  | [] => some []
  | product :: rest =>
    match lookupQuantity items product.pid with
    | none => (applyStockDecrements items rest).map (fun tl => product :: tl)
    | some quantity =>
      if product.stock < quantity then none
      else (applyStockDecrements items rest).map
        (fun tl => { product with stock := product.stock - quantity } :: tl)

/-- CheckoutConfirmSerializer.save (backend/orders/serializers.py), with the
retrieved payment intent as input.  A non-succeeded status is either the
retryable processing ValidationError (state untouched) or mark_as_failed
plus a push to the owner and a ValidationError.  A succeeded status enters
the atomic block: when the order is not yet PAID it is marked paid, an
OrderPayment row is inserted, and the stock gate runs — a shortfall raises,
rolling the whole transaction back (payment row included); when the order
is already PAID the block mutates nothing.  On success the post-commit push
to the owner fires. -/
def confirmCheckout (payment_intent : PaymentIntent) (st : SettlementState) :
    ConfirmResult :=
  let status := payment_intent.status
  if status ≠ "succeeded" then
    if status = "processing" ∨ status = "requires_confirmation" then
      ⟨st, ConfirmOutcome.retryable, false, false⟩
    else
      ⟨{ st with order := mark_as_failed st.order },
        ConfirmOutcome.paymentFailed, st.order.has_user, false⟩
  else
    if st.order.status ≠ OrderStatus.PAID then
      match applyStockDecrements st.items st.products with
      | none => ⟨st, ConfirmOutcome.insufficientStock, false, false⟩
      | some products' =>
        let order' := mark_as_paid payment_intent.receipt_url st.order
        let row : OrderPayment :=
          ⟨payment_intent.intent_id, status,
            (payment_intent.amount : ℚ) / 100,
            payment_intent.currency.toUpper,
            (payment_intent.receipt_url).getD ""⟩
        ⟨{ st with
            order := order'
            products := products'
            payments := st.payments ++ [row] },
          ConfirmOutcome.ok, false, st.order.has_user⟩
    else
      ⟨st, ConfirmOutcome.ok, false, st.order.has_user⟩

/-- The expression computing amount_cents in _record_payment: the Python
truthiness chain amount_received or amount or 0 over integers. -/
def amountCents (payment_intent : PaymentIntent) : ℤ :=
  match payment_intent.amount_received with
  | some a => if a ≠ 0 then a else payment_intent.amount
  | none => payment_intent.amount

/-- OrderPayment.objects.update_or_create keyed by the intent id within one
order's rows: update the defaults of the matching row, or append one. -/
def upsertPayment (payments : List OrderPayment) (row : OrderPayment) :
    List OrderPayment :=
  if payments.any (fun p => p.stripe_payment_intent_id = row.stripe_payment_intent_id) then
    payments.map (fun p =>
      if p.stripe_payment_intent_id = row.stripe_payment_intent_id then row else p)
  else payments ++ [row]

/-- The function _record_payment of backend/orders/services.py: inside one
transaction, mark the order paid when the observed status is succeeded and
the order is not yet PAID, mark it failed when the status is failed, then
upsert the OrderPayment row keyed by (order, intent id).  It never touches
product stock. -/
def _record_payment (payment_intent : PaymentIntent) (status : String)
    (st : SettlementState) : SettlementState :=
  let order :=
    if status = "succeeded" ∧ st.order.status ≠ OrderStatus.PAID then
      mark_as_paid payment_intent.receipt_url st.order
    else if status = "failed" then
      mark_as_failed st.order
    else st.order
  let row : OrderPayment :=
    ⟨payment_intent.intent_id, status,
      (amountCents payment_intent : ℚ) / 100,
      payment_intent.currency.toUpper,
      (payment_intent.receipt_url).getD ""⟩
  { st with order := order, payments := upsertPayment st.payments row }

/-- handle_stripe_event (backend/orders/services.py): for the two
payment-intent event types, look the order up by the stored intent id and
record the observed status; any other event, or an intent naming no known
order, is a no-op. -/
def handle_stripe_event (event_type : String) (payment_intent : PaymentIntent)
    (st : SettlementState) : SettlementState :=
  if event_type = "payment_intent.succeeded" ∨
      event_type = "payment_intent.payment_failed" then
    if payment_intent.intent_id = st.order.stripe_payment_intent_id then
      let status :=
        if event_type = "payment_intent.succeeded" then "succeeded" else "failed"
      _record_payment payment_intent status st
    else st
  else st

/-- A settlement event: a synchronous confirm call or a webhook delivery. -/
inductive SettlementEvent
  | confirm (payment_intent : PaymentIntent)
  | webhook (event_type : String) (payment_intent : PaymentIntent)
deriving DecidableEq, Repr

/-- The state after one settlement event (a confirm call's errors leave the
state the rollback semantics produce). -/
def settlementStep (st : SettlementState) : SettlementEvent → SettlementState
  | SettlementEvent.confirm payment_intent => (confirmCheckout payment_intent st).state
  | SettlementEvent.webhook event_type payment_intent =>
      handle_stripe_event event_type payment_intent st

/-- The state after a sequence of settlement events. -/
def settlementRun (st : SettlementState) (events : List SettlementEvent) :
    SettlementState :=
  events.foldl settlementStep st

/-- One raw cart line of the checkout request body
(CheckoutCartItemSerializer): a product id and a quantity the field
declaration bounds into [1, 50]. -/
structure CartLine where
  product_id : Nat
  quantity : Int
deriving DecidableEq, Repr

/-- Field-level validation of one cart line: IntegerField with min_value 1
and max_value 50. -/
def validCartLine (line : CartLine) : Bool :=
  1 ≤ line.quantity && line.quantity ≤ 50

/-- The validation errors CheckoutStartSerializer can raise before any
order is persisted. -/
inductive CheckoutError
  | invalid_quantity
  | empty_cart
  | unavailable_products
  | insufficient_stock (product_id : Nat)
  | non_positive_total
deriving DecidableEq, Repr

/-- One step of the aggregation loop in validate_cart: the Python dict
update aggregated[pid] = aggregated.get(pid, 0) + quantity, keeping first
insertion order. -/
def addLine (acc : List (Nat × Int)) (line : CartLine) : List (Nat × Int) :=
  if acc.any (fun p => p.1 = line.product_id) then
    acc.map (fun p =>
      if p.1 = line.product_id then (p.1, p.2 + line.quantity) else p)
  else acc ++ [(line.product_id, line.quantity)]

/-- The aggregated cart of validate_cart: per-product summed quantities in
first-seen order. -/
def aggregateCart (cart : List CartLine) : List (Nat × Int) :=
  cart.foldl addLine []

/-- The lookup Product.objects.filter(id__in=..., is_active=True) performs
for one requested id (ids are unique primary keys). -/
def findProduct (catalog : List Product) (pid : Nat) : Option Product :=
  (catalog.filter (fun p => p.is_active)).find? (fun p => p.pid = pid)

/-- CheckoutStartSerializer.validate_cart together with the field-level
bounds of CheckoutCartItemSerializer: reject a line outside [1, 50], an
empty cart, a requested id with no active product, and the first aggregated
line whose quantity exceeds the product's stock; otherwise return the
aggregated cart with its resolved products. -/
def validate_cart (catalog : List Product) (cart : List CartLine) :
    Except CheckoutError (List (Product × Nat)) :=
  if cart.any (fun line => ! validCartLine line) then
    Except.error CheckoutError.invalid_quantity
  else if cart.isEmpty then
    Except.error CheckoutError.empty_cart
  else
    let aggregated := aggregateCart cart
    if aggregated.any (fun p => (findProduct catalog p.1).isNone) then
      Except.error CheckoutError.unavailable_products
    else
      let lines := aggregated.filterMap (fun p =>
        (findProduct catalog p.1).map (fun product => (product, p.2.toNat)))
      match lines.find? (fun l => l.1.stock < l.2) with
      | some l => Except.error (CheckoutError.insufficient_stock l.1.pid)
      | none => Except.ok lines

/-- The discount per unit CheckoutStartSerializer.create reads off the
pricing engine for one product: zero when the engine returns no pricing. -/
def discountPerUnit (promotions : List Promotion) (product : Product) : ℚ :=
  match pricingFor promotions product with
  | some pricing => pricing.discount_per_unit
  | none => 0

/-- The discounted unit price create uses for the OrderItem snapshot: the
pricing's final price, or the product's own price without a promotion. -/
def discountedUnitPrice (promotions : List Promotion) (product : Product) : ℚ :=
  match pricingFor promotions product with
  | some pricing => pricing.final_price
  | none => product.price

/-- The OrderItem row CheckoutStartSerializer.create builds for one
aggregated line: discounted unit price, line total at that price, and the
line's discount amount. -/
def checkoutItem (promotions : List Promotion) (product : Product)
    (quantity : Nat) : OrderItem :=
  { product_id := product.pid
    product_name := product.name
    unit_price := discountedUnitPrice promotions product
    quantity := quantity
    total_price := discountedUnitPrice promotions product * (quantity : ℚ)
    discount_amount := discountPerUnit promotions product * (quantity : ℚ) }

/-- CheckoutStartSerializer.create after validate_cart
(backend/orders/serializers.py): sum original line totals into the
subtotal and per-unit discounts into the discount total, take tax and
shipping as zero, reject a non-positive total, and otherwise persist the
PENDING_PAYMENT order with its items. -/
def start_checkout (catalog : List Product) (promotions : List Promotion)
    (cart : List CartLine) (has_user : Bool) (intent_id : String) :
    Except CheckoutError (Order × List OrderItem) := do
  let lines ← validate_cart catalog cart
  let subtotal := lines.foldl (fun acc l => acc + l.1.price * (l.2 : ℚ)) 0
  let discount_total :=
    lines.foldl (fun acc l => acc + discountPerUnit promotions l.1 * (l.2 : ℚ)) 0
  let tax_amount : ℚ := 0
  let shipping_amount : ℚ := 0
  let total := subtotal - discount_total + tax_amount + shipping_amount
  if total ≤ 0 then
    Except.error CheckoutError.non_positive_total
  else
    Except.ok
      ({ status := OrderStatus.PENDING_PAYMENT
         fulfillment_status := FulfillmentStatus.PENDING
         has_user := has_user
         subtotal_amount := subtotal
         tax_amount := tax_amount
         shipping_amount := shipping_amount
         discount_amount := discount_total
         total_amount := total
         stripe_payment_intent_id := intent_id
         receipt_url := ""
         paid_at_set := false },
        lines.map (fun l => checkoutItem promotions l.1 l.2))

/-- The per-row check-and-decrement contract of the inventory gate: a row no
item names is untouched; a named row must cover the quantity and comes out
decremented by it. -/
def decrementSpec (items : List OrderItem) (before after : Product) : Prop :=
  match lookupQuantity items before.pid with
  | none => after = before
  | some quantity =>
      quantity ≤ before.stock ∧
      after = { before with stock := before.stock - quantity }

theorem applyStockDecrements_spec (items : List OrderItem) :
    ∀ (ps ps' : List Product),
      applyStockDecrements items ps = some ps' ↔
        List.Forall₂ (decrementSpec items) ps ps' := by
  intro ps
  induction ps with
  | nil =>
    intro ps'
    constructor
    · intro h
      simp only [applyStockDecrements, Option.some.injEq] at h
      rw [← h]
      exact List.Forall₂.nil
    · intro h
      cases h
      rfl
  | cons p rest ih =>
    intro ps'
    cases hq : lookupQuantity items p.pid with
    | none =>
      constructor
      · intro h
        simp only [applyStockDecrements, hq, Option.map_eq_some'] at h
        obtain ⟨tl, htl, rfl⟩ := h
        exact List.Forall₂.cons (by simp [decrementSpec, hq]) ((ih tl).mp htl)
      · intro h
        cases h with
        | cons hpq hrest =>
          simp only [decrementSpec, hq] at hpq
          subst hpq
          simp only [applyStockDecrements, hq, Option.map_eq_some']
          exact ⟨_, (ih _).mpr hrest, rfl⟩
    | some q =>
      constructor
      · intro h
        simp only [applyStockDecrements, hq] at h
        by_cases hs : p.stock < q
        · rw [if_pos hs] at h
          simp at h
        · rw [if_neg hs] at h
          simp only [Option.map_eq_some'] at h
          obtain ⟨tl, htl, rfl⟩ := h
          exact List.Forall₂.cons
            (by simp [decrementSpec, hq, Nat.le_of_not_lt hs]) ((ih tl).mp htl)
      · intro h
        cases h with
        | cons hpq hrest =>
          simp only [decrementSpec, hq] at hpq
          obtain ⟨hle, rfl⟩ := hpq
          simp only [applyStockDecrements, hq, if_neg (Nat.not_lt.mpr hle),
            Option.map_eq_some']
          exact ⟨_, (ih _).mpr hrest, rfl⟩

/-- Equation lemma: a succeeded confirm on an already-PAID order mutates
nothing and succeeds. -/
theorem confirmCheckout_already_paid (payment_intent : PaymentIntent)
    (st : SettlementState) (hs : payment_intent.status = "succeeded")
    (hp : st.order.status = OrderStatus.PAID) :
    confirmCheckout payment_intent st =
      ⟨st, ConfirmOutcome.ok, false, st.order.has_user⟩ := by
  simp [confirmCheckout, hs, hp]

/-- Equation lemma: a succeeded confirm on a not-yet-PAID order whose
inventory gate passes marks the order paid, inserts the payment row and
writes the decremented stock. -/
theorem confirmCheckout_settles (payment_intent : PaymentIntent)
    (st : SettlementState) (ps' : List Product)
    (hs : payment_intent.status = "succeeded")
    (hp : st.order.status ≠ OrderStatus.PAID)
    (hd : applyStockDecrements st.items st.products = some ps') :
    confirmCheckout payment_intent st =
      ⟨⟨mark_as_paid payment_intent.receipt_url st.order, st.items, ps',
          st.payments ++
            [⟨payment_intent.intent_id, "succeeded",
              (payment_intent.amount : ℚ) / 100,
              payment_intent.currency.toUpper,
              (payment_intent.receipt_url).getD ""⟩]⟩,
        ConfirmOutcome.ok, false, st.order.has_user⟩ := by
  simp [confirmCheckout, hs, hp, hd]

/-- C2 (amended). When a succeeded payment hits the inventory gate with a
product short of the item quantity, the settlement raises: the order is not
marked PAID, stock is untouched, and — because the OrderPayment insert sits
inside the same atomic block the raise rolls back — the payment row does
not persist either: the state is exactly the pre-call state. -/
theorem insufficient_stock_rolls_back (payment_intent : PaymentIntent)
    (st : SettlementState)
    (hs : payment_intent.status = "succeeded")
    (hp : st.order.status ≠ OrderStatus.PAID)
    (hd : applyStockDecrements st.items st.products = none) :
    confirmCheckout payment_intent st =
      ⟨st, ConfirmOutcome.insufficientStock, false, false⟩ := by
  simp [confirmCheckout, hs, hp, hd]

/-- Equation lemma: a still-processing intent is a retryable failure that
mutates nothing. -/
theorem confirmCheckout_retryable (payment_intent : PaymentIntent)
    (st : SettlementState)
    (hr : payment_intent.status = "processing" ∨
      payment_intent.status = "requires_confirmation") :
    confirmCheckout payment_intent st =
      ⟨st, ConfirmOutcome.retryable, false, false⟩ := by
  have hne : payment_intent.status ≠ "succeeded" := by
    rcases hr with h | h <;> rw [h] <;> decide
  simp [confirmCheckout, hne, hr]

/-- Equation lemma: any other non-succeeded intent status marks the order
FAILED, pushes a notification to the owner when one exists, and fails. -/
theorem confirmCheckout_failure (payment_intent : PaymentIntent)
    (st : SettlementState)
    (hne : payment_intent.status ≠ "succeeded")
    (hnr : ¬ (payment_intent.status = "processing" ∨
      payment_intent.status = "requires_confirmation")) :
    confirmCheckout payment_intent st =
      ⟨{ st with order := mark_as_failed st.order },
        ConfirmOutcome.paymentFailed, st.order.has_user, false⟩ := by
  simp [confirmCheckout, hne, hnr]

/-- When any confirm returns success the order left behind is PAID and the
intent status was succeeded. -/
theorem confirmCheckout_ok_status (payment_intent : PaymentIntent)
    (st : SettlementState)
    (h : (confirmCheckout payment_intent st).outcome = ConfirmOutcome.ok) :
    (confirmCheckout payment_intent st).state.order.status = OrderStatus.PAID ∧
    payment_intent.status = "succeeded" := by
  by_cases hs : payment_intent.status = "succeeded"
  · refine ⟨?_, hs⟩
    by_cases hp : st.order.status = OrderStatus.PAID
    · rw [confirmCheckout_already_paid payment_intent st hs hp]
      exact hp
    · cases hd : applyStockDecrements st.items st.products with
      | none =>
        rw [insufficient_stock_rolls_back payment_intent st hs hp hd] at h
        simp at h
      | some ps' =>
        rw [confirmCheckout_settles payment_intent st ps' hs hp hd]
        rfl
  · exfalso
    by_cases hr : payment_intent.status = "processing" ∨
        payment_intent.status = "requires_confirmation"
    · rw [confirmCheckout_retryable payment_intent st hr] at h
      simp at h
    · rw [confirmCheckout_failure payment_intent st hs hr] at h
      simp at h

/-- C1. Confirmation is idempotent: once a confirm call on a succeeded
intent has come back successful (the order is PAID), running the same
confirm again returns success and leaves the database state — order,
product stock, OrderPayment rows — exactly as it was: no second stock
decrement and no second payment row for the (order, intent) pair. -/
theorem confirm_idempotent (payment_intent : PaymentIntent)
    (st : SettlementState)
    (h1 : (confirmCheckout payment_intent st).outcome = ConfirmOutcome.ok) :
    (confirmCheckout payment_intent
        ((confirmCheckout payment_intent st).state)).state =
      (confirmCheckout payment_intent st).state ∧
    (confirmCheckout payment_intent
        ((confirmCheckout payment_intent st).state)).outcome =
      ConfirmOutcome.ok := by
  obtain ⟨hpaid, hs⟩ := confirmCheckout_ok_status payment_intent st h1
  rw [confirmCheckout_already_paid payment_intent
    ((confirmCheckout payment_intent st).state) hs hpaid]
  exact ⟨rfl, rfl⟩

/-- Witness order for the settlement theorems: a pending order of two units
priced 90.00 after discount, stock 5 at the product. -/
def wOrder : Order :=
  ⟨OrderStatus.PENDING_PAYMENT, FulfillmentStatus.PENDING, true,
    200, 0, 0, 20, 180, "pi_1", "", false⟩

/-- Witness product row with stock 5. -/
def wProduct : Product := ⟨1, some 7, "P", 100, 5, true⟩

/-- Witness settlement state. -/
def wState : SettlementState :=
  ⟨wOrder, [⟨1, "P", 90, 2, 180, 20⟩], [wProduct], []⟩

/-- Witness succeeded payment intent. -/
def wIntent : PaymentIntent :=
  ⟨"pi_1", "succeeded", 18000, some 18000, "usd", some "r"⟩

/-- Witness for C1 at the concrete state: the first confirm succeeds, so
the theorem applies and the second confirm is a no-op success. -/
theorem confirm_idempotent_witness :
    (confirmCheckout wIntent ((confirmCheckout wIntent wState).state)).state =
      (confirmCheckout wIntent wState).state ∧
    (confirmCheckout wIntent
        ((confirmCheckout wIntent wState).state)).outcome =
      ConfirmOutcome.ok :=
  confirm_idempotent wIntent wState (by decide)

/-- Settlement state for the stock-exhaustion counterexample: a pending
order wanting two units of a product whose stock has dropped to one, with
no payment rows yet. -/
def shortState : SettlementState :=
  ⟨⟨OrderStatus.PENDING_PAYMENT, FulfillmentStatus.PENDING, false,
      200, 0, 0, 20, 180, "pi_2", "", false⟩,
    [⟨1, "P", 90, 2, 180, 20⟩], [⟨1, some 7, "P", 100, 1, true⟩], []⟩

/-- Succeeded intent for the stock-exhaustion counterexample. -/
def shortIntent : PaymentIntent :=
  ⟨"pi_2", "succeeded", 18000, some 18000, "usd", some "r"⟩

/-- C2 counterexample: settling a succeeded payment against stock 1 with an
item of quantity 2 raises the insufficient-stock error and afterwards there
is NO OrderPayment row for the pair — the raise happens inside the same
transaction as the payment insert, so the row is rolled back, contrary to
the claimed persistence. -/
theorem payment_row_not_persisted_cex :
    (confirmCheckout shortIntent shortState).outcome =
        ConfirmOutcome.insufficientStock ∧
    (confirmCheckout shortIntent shortState).state.payments = [] ∧
    (confirmCheckout shortIntent shortState).state.order.status =
        OrderStatus.PENDING_PAYMENT ∧
    (confirmCheckout shortIntent shortState).state.products =
        shortState.products := by
  decide

/-- Witness for the C2 amended theorem at the same concrete short-stock
state. -/
theorem insufficient_stock_rolls_back_witness :
    confirmCheckout shortIntent shortState =
      ⟨shortState, ConfirmOutcome.insufficientStock, false, false⟩ :=
  insufficient_stock_rolls_back shortIntent shortState (by decide) (by decide)
    (by decide)

/-- A PAID settlement state reached by a successful confirm: the witness
state after settling. -/
def paidState : SettlementState := (confirmCheckout wIntent wState).state

/-- C3 (code bug): an order already PAID that receives a
payment_intent.payment_failed webhook for its own intent is flipped to
FAILED — _record_payment calls mark_as_failed without checking that the
order is PAID, so PAID is not terminal under webhook events. -/
theorem paid_not_terminal_under_failed_webhook :
    paidState.order.status = OrderStatus.PAID ∧
    (settlementStep paidState
        (SettlementEvent.webhook "payment_intent.payment_failed"
          wIntent)).order.status = OrderStatus.FAILED := by
  decide

/-- Pending state for the webhook counterexample of C4, stock 5. -/
def webhookState : SettlementState :=
  ⟨⟨OrderStatus.PENDING_PAYMENT, FulfillmentStatus.PENDING, false,
      200, 0, 0, 20, 180, "pi_3", "", false⟩,
    [⟨1, "P", 90, 2, 180, 20⟩], [⟨1, some 7, "P", 100, 5, true⟩], []⟩

/-- Succeeded intent delivered by webhook for the C4 counterexample. -/
def webhookIntent : PaymentIntent :=
  ⟨"pi_3", "succeeded", 18000, some 18000, "usd", some "r"⟩

/-- C4 counterexample: a payment_intent.succeeded webhook transitions the
pending order to PAID yet leaves every product's stock exactly as it was —
the webhook path records the payment but never decrements inventory, so
not every transition to PAID decrements stock. -/
theorem webhook_paid_without_decrement_cex :
    webhookState.order.status = OrderStatus.PENDING_PAYMENT ∧
    (handle_stripe_event "payment_intent.succeeded" webhookIntent
        webhookState).order.status = OrderStatus.PAID ∧
    (handle_stripe_event "payment_intent.succeeded" webhookIntent
        webhookState).products = webhookState.products := by
  decide

/-- C4 (amended). Only the synchronous confirm path runs the inventory
gate: a successful confirm of a succeeded intent on a not-yet-PAID order
marks it PAID and rewrites the product rows by the check-and-decrement
relation (each item's product verified to hold at least the item quantity,
then decremented by it) in the same transaction, while the webhook path
marks the order PAID and records the payment with all product stock left
unchanged. -/
theorem paid_decrement_amended (payment_intent : PaymentIntent)
    (st : SettlementState)
    (hs : payment_intent.status = "succeeded")
    (hp : st.order.status ≠ OrderStatus.PAID)
    (hid : payment_intent.intent_id = st.order.stripe_payment_intent_id) :
    ((confirmCheckout payment_intent st).outcome = ConfirmOutcome.ok →
      (confirmCheckout payment_intent st).state.order.status =
          OrderStatus.PAID ∧
      List.Forall₂ (decrementSpec st.items) st.products
        (confirmCheckout payment_intent st).state.products) ∧
    Order.status (SettlementState.order (handle_stripe_event
        "payment_intent.succeeded" payment_intent st)) = OrderStatus.PAID ∧
    SettlementState.products (handle_stripe_event "payment_intent.succeeded"
        payment_intent st) = st.products := by
  refine ⟨?_, ?_, ?_⟩
  · intro hok
    cases hd : applyStockDecrements st.items st.products with
    | none =>
      rw [insufficient_stock_rolls_back payment_intent st hs hp hd] at hok
      simp at hok
    | some ps' =>
      rw [confirmCheckout_settles payment_intent st ps' hs hp hd]
      exact ⟨rfl, (applyStockDecrements_spec st.items st.products ps').mp hd⟩
  · simp [handle_stripe_event, hid, _record_payment, hp, mark_as_paid]
  · simp [handle_stripe_event, hid, _record_payment]

/-- Witness for the C4 amended theorem at the concrete webhook state. -/
theorem paid_decrement_amended_witness :
    ((confirmCheckout webhookIntent webhookState).outcome =
        ConfirmOutcome.ok →
      (confirmCheckout webhookIntent webhookState).state.order.status =
          OrderStatus.PAID ∧
      List.Forall₂ (decrementSpec webhookState.items) webhookState.products
        (confirmCheckout webhookIntent webhookState).state.products) ∧
    (handle_stripe_event "payment_intent.succeeded" webhookIntent
        webhookState).order.status = OrderStatus.PAID ∧
    (handle_stripe_event "payment_intent.succeeded" webhookIntent
        webhookState).products = webhookState.products :=
  paid_decrement_amended webhookIntent webhookState (by decide) (by decide)
    (by decide)

/-- Pending state for the C5 counterexample. -/
def pendingState : SettlementState :=
  ⟨⟨OrderStatus.PENDING_PAYMENT, FulfillmentStatus.PENDING, true,
      200, 0, 0, 20, 180, "pi_4", "", false⟩,
    [⟨1, "P", 90, 2, 180, 20⟩], [⟨1, some 7, "P", 100, 5, true⟩], []⟩

/-- A payment intent whose external status says the processor is waiting on
the customer. -/
def requiresActionIntent : PaymentIntent :=
  ⟨"pi_4", "requires_action", 18000, none, "usd", none⟩

/-- C5 counterexample: an intent in status requires_action — the processor
still working, per the claim a retryable no-mutation failure — is instead
treated as a final failure: the order is marked FAILED, because the code's
retryable set is processing and requires_confirmation only. -/
theorem requires_action_marks_failed_cex :
    pendingState.order.status = OrderStatus.PENDING_PAYMENT ∧
    (confirmCheckout requiresActionIntent pendingState).outcome =
        ConfirmOutcome.paymentFailed ∧
    (confirmCheckout requiresActionIntent pendingState).state.order.status =
        OrderStatus.FAILED := by
  decide

/-- C5 (amended). For a pending order, a non-succeeded intent status in the
set processing / requires_confirmation (not requires_action) raises the
retryable error with the state — order, items, stock, payments — fully
unchanged; every other non-succeeded status (requires_action included)
marks the order FAILED, notifies the owner exactly when one exists, and
fails the request. -/
theorem non_succeeded_confirm_amended (payment_intent : PaymentIntent)
    (st : SettlementState)
    (hpend : st.order.status = OrderStatus.PENDING_PAYMENT)
    (hne : payment_intent.status ≠ "succeeded") :
    (payment_intent.status = "processing" ∨
        payment_intent.status = "requires_confirmation" →
      confirmCheckout payment_intent st =
        ⟨st, ConfirmOutcome.retryable, false, false⟩) ∧
    (¬ (payment_intent.status = "processing" ∨
        payment_intent.status = "requires_confirmation") →
      confirmCheckout payment_intent st =
        ⟨{ st with order := mark_as_failed st.order },
          ConfirmOutcome.paymentFailed, st.order.has_user, false⟩) := by
  exact ⟨fun hr => confirmCheckout_retryable payment_intent st hr,
    fun hnr => confirmCheckout_failure payment_intent st hne hnr⟩

/-- A processing-status intent for the C5 witness. -/
def processingIntent : PaymentIntent :=
  ⟨"pi_4", "processing", 18000, none, "usd", none⟩

/-- Witness for the C5 amended theorem: a processing intent at the concrete
pending state takes the retryable branch and mutates nothing. -/
theorem non_succeeded_confirm_amended_witness :
    (processingIntent.status = "processing" ∨
        processingIntent.status = "requires_confirmation" →
      confirmCheckout processingIntent pendingState =
        ⟨pendingState, ConfirmOutcome.retryable, false, false⟩) ∧
    (¬ (processingIntent.status = "processing" ∨
        processingIntent.status = "requires_confirmation") →
      confirmCheckout processingIntent pendingState =
        ⟨{ pendingState with order := mark_as_failed pendingState.order },
          ConfirmOutcome.paymentFailed, pendingState.order.has_user,
          false⟩) :=
  non_succeeded_confirm_amended processingIntent pendingState (by decide)
    (by decide)

/-- Loop invariant of _select_best_promotion over the processed prefix of
the candidate list: a running best of none means every candidate so far
yielded a non-positive discount; a running best is a seen candidate with a
positive discount equal to its calculated discount, final price equal to
unit price minus discount, maximal among the seen discounts, and of the
most specific scope among seen candidates tied at that discount. -/
def SelectorInv (u : ℚ) (seen : List Promotion) :
    Option PromotionPricing → Prop
  | none => ∀ p ∈ seen, _calculate_discount u p ≤ 0
  | some b =>
    b.promotion ∈ seen ∧
    b.discount_per_unit = _calculate_discount u b.promotion ∧
    0 < b.discount_per_unit ∧
    b.final_price = u - b.discount_per_unit ∧
    (∀ p ∈ seen, _calculate_discount u p ≤ b.discount_per_unit) ∧
    (∀ p ∈ seen, _calculate_discount u p = b.discount_per_unit →
      scope_priority b.promotion.scope ≤ scope_priority p.scope)

theorem selectStep_inv (u : ℚ) (seen : List Promotion)
    (acc : Option PromotionPricing) (hacc : SelectorInv u seen acc)
    (p : Promotion) : SelectorInv u (seen ++ [p]) (selectStep u acc p) := by
  by_cases hd : _calculate_discount u p ≤ 0
  · have hstep : selectStep u acc p = acc := by
      simp [selectStep, hd]
    rw [hstep]
    cases acc with
    | none =>
      simp only [SelectorInv] at hacc ⊢
      intro q hq
      rcases List.mem_append.mp hq with h | h
      · exact hacc q h
      · rw [List.mem_singleton.mp h]; exact hd
    | some b =>
      simp only [SelectorInv] at hacc ⊢
      obtain ⟨hmem, hdpu, hpos, hfin, hmax, hscope⟩ := hacc
      refine ⟨List.mem_append_left _ hmem, hdpu, hpos, hfin, ?_, ?_⟩
      · intro q hq
        rcases List.mem_append.mp hq with h | h
        · exact hmax q h
        · rw [List.mem_singleton.mp h]; exact le_trans hd (le_of_lt hpos)
      · intro q hq heq
        rcases List.mem_append.mp hq with h | h
        · exact hscope q h heq
        · rw [List.mem_singleton.mp h] at heq ⊢
          rw [heq] at hd
          exact absurd hpos (not_lt.mpr hd)
  · have hpos' : 0 < _calculate_discount u p := lt_of_not_le hd
    cases acc with
    | none =>
      have hstep : selectStep u none p =
          some ⟨p, _calculate_discount u p, u - _calculate_discount u p⟩ := by
        simp [selectStep, hd]
      rw [hstep]
      simp only [SelectorInv] at hacc ⊢
      refine ⟨List.mem_append_right _ (List.mem_singleton_self p), by trivial,
        hpos', by trivial, ?_, ?_⟩
      · intro q hq
        rcases List.mem_append.mp hq with h | h
        · exact le_trans (hacc q h) (le_of_lt hpos')
        · rw [List.mem_singleton.mp h]
      · intro q hq heq
        rcases List.mem_append.mp hq with h | h
        · have hq0 := hacc q h
          rw [heq] at hq0
          exact absurd hpos' (not_lt.mpr hq0)
        · rw [List.mem_singleton.mp h]
    | some b =>
      simp only [SelectorInv] at hacc
      obtain ⟨hmem, hdpu, hpos, hfin, hmax, hscope⟩ := hacc
      by_cases hgt : b.discount_per_unit < _calculate_discount u p
      · have hstep : selectStep u (some b) p =
            some ⟨p, _calculate_discount u p, u - _calculate_discount u p⟩ := by
          simp only [selectStep]
          rw [if_neg hd, if_pos hgt]
        rw [hstep]
        simp only [SelectorInv]
        refine ⟨List.mem_append_right _ (List.mem_singleton_self p),
          by trivial, hpos', by trivial, ?_, ?_⟩
        · intro q hq
          rcases List.mem_append.mp hq with h | h
          · exact le_trans (hmax q h) (le_of_lt hgt)
          · rw [List.mem_singleton.mp h]
        · intro q hq heq
          rcases List.mem_append.mp hq with h | h
          · have hq0 := hmax q h
            rw [heq] at hq0
            exact absurd hgt (not_lt.mpr hq0)
          · rw [List.mem_singleton.mp h]
      · by_cases htie : _calculate_discount u p = b.discount_per_unit ∧
            scope_priority p.scope < scope_priority b.promotion.scope
        · have hstep : selectStep u (some b) p =
              some ⟨p, _calculate_discount u p,
                u - _calculate_discount u p⟩ := by
            simp only [selectStep]
            rw [if_neg hd, if_neg hgt, if_pos htie]
          rw [hstep]
          simp only [SelectorInv]
          refine ⟨List.mem_append_right _ (List.mem_singleton_self p),
            by trivial, hpos', by trivial, ?_, ?_⟩
          · intro q hq
            rcases List.mem_append.mp hq with h | h
            · rw [htie.1]; exact hmax q h
            · rw [List.mem_singleton.mp h]
          · intro q hq heq
            rcases List.mem_append.mp hq with h | h
            · rw [htie.1] at heq
              exact le_trans (le_of_lt htie.2) (hscope q h heq)
            · rw [List.mem_singleton.mp h]
        · have hstep : selectStep u (some b) p = some b := by
            simp only [selectStep]
            rw [if_neg hd, if_neg hgt, if_neg htie]
          rw [hstep]
          simp only [SelectorInv]
          refine ⟨List.mem_append_left _ hmem, hdpu, hpos, hfin, ?_, ?_⟩
          · intro q hq
            rcases List.mem_append.mp hq with h | h
            · exact hmax q h
            · rw [List.mem_singleton.mp h]; exact not_lt.mp hgt
          · intro q hq heq
            rcases List.mem_append.mp hq with h | h
            · exact hscope q h heq
            · rw [List.mem_singleton.mp h] at heq ⊢
              rcases not_and_or.mp htie with hne | hsc
              · exact absurd heq hne
              · exact not_lt.mp hsc

theorem foldl_select_inv (u : ℚ) :
    ∀ (cs seen : List Promotion) (acc : Option PromotionPricing),
      SelectorInv u seen acc →
      SelectorInv u (seen ++ cs) (cs.foldl (selectStep u) acc) := by
  intro cs
  induction cs with
  | nil =>
    intro seen acc h
    simpa using h
  | cons p rest ih =>
    intro seen acc h
    have h2 := ih (seen ++ [p]) (selectStep u acc p) (selectStep_inv u seen acc h p)
    simpa [List.append_assoc] using h2

theorem select_best_inv (product : Product) (cs : List Promotion) :
    SelectorInv product.price cs (_select_best_promotion product cs) := by
  have h0 : SelectorInv product.price [] none := by
    simp [SelectorInv]
  simpa using foldl_select_inv product.price cs [] none h0

theorem roundHalfEven_le_int {x : ℚ} {n : ℤ} (h : x ≤ (n : ℚ)) :
    roundHalfEven x ≤ n := by
  have hfl : ⌊x⌋ ≤ n := by
    have := Int.floor_mono h
    simpa using this
  have hstep : ¬ (x - ((⌊x⌋ : ℤ) : ℚ) < 1 / 2) → ⌊x⌋ + 1 ≤ n := by
    intro hf
    have h1 : ((⌊x⌋ : ℤ) : ℚ) + 1 / 2 ≤ x := by
      have := not_lt.mp hf
      linarith
    have h2 : ((⌊x⌋ : ℤ) : ℚ) < (n : ℚ) := by linarith
    have h3 : ⌊x⌋ < n := by exact_mod_cast h2
    omega
  simp only [roundHalfEven]
  split_ifs with h1 h2 h3
  · exact hfl
  · exact hstep h1
  · exact hfl
  · exact hstep h1

theorem quantize2_le_of_le {x : ℚ} {n : ℤ} (h : x ≤ (n : ℚ) / 100) :
    quantize2 x ≤ (n : ℚ) / 100 := by
  have h100 : x * 100 ≤ (n : ℚ) := by linarith
  have hr := roundHalfEven_le_int h100
  have hc : ((roundHalfEven (x * 100) : ℤ) : ℚ) ≤ (n : ℚ) := by
    exact_mod_cast hr
  simp only [quantize2]
  linarith

/-- The discount computed for any promotion never exceeds a positive
two-decimal unit price: the clamp bounds it by the price and half-even
quantization cannot cross a value that is itself a whole number of
cents. -/
theorem calculate_discount_le (unit_price : ℚ) (promotion : Promotion)
    (hpos : 0 < unit_price) (h2 : TwoDecimal unit_price) :
    _calculate_discount unit_price promotion ≤ unit_price := by
  obtain ⟨n, hn⟩ := h2
  have key : ∀ c : ℚ, c ≤ unit_price → quantize2 c ≤ unit_price := by
    intro c hc
    rw [hn] at hc ⊢
    exact quantize2_le_of_le hc
  simp only [_calculate_discount]
  rw [if_neg (not_le.mpr hpos)]
  split_ifs <;> apply key <;> linarith

/-- C6. For a positive two-decimal unit price, whatever candidate set it is
given, when the selector returns a pricing its discount per unit lies in
(0, unit_price] and its final price in [0, unit_price): the discount never
exceeds the unit price and the final price is never negative, for PERCENT
and fixed-amount promotions alike. -/
theorem selector_price_bounds (product : Product) (cs : List Promotion)
    (hpos : 0 < product.price) (h2 : TwoDecimal product.price) :
    ∀ pr, _select_best_promotion product cs = some pr →
      0 < pr.discount_per_unit ∧
      pr.discount_per_unit ≤ product.price ∧
      0 ≤ pr.final_price ∧
      pr.final_price < product.price := by
  intro pr hsel
  have hinv := select_best_inv product cs
  rw [hsel] at hinv
  simp only [SelectorInv] at hinv
  obtain ⟨hmem, hdpu, hposd, hfin, _, _⟩ := hinv
  have hle : pr.discount_per_unit ≤ product.price := by
    rw [hdpu]
    exact calculate_discount_le product.price pr.promotion hpos h2
  refine ⟨hposd, hle, ?_, ?_⟩
  · rw [hfin]; linarith
  · rw [hfin]; linarith

/-- Witness promotion: GLOBAL 10 percent. -/
def wPromo : Promotion := ⟨11, DiscountType.PERCENT, 10, Scope.GLOBAL, [], []⟩

/-- Witness for C6 at the product priced 100.00 with the 10 percent
promotion: the selector picks discount 10.00 and final price 90.00, within
the required bounds. -/
theorem selector_price_bounds_witness :
    0 < (⟨wPromo, 10, 90⟩ : PromotionPricing).discount_per_unit ∧
    (⟨wPromo, 10, 90⟩ : PromotionPricing).discount_per_unit ≤
        wProduct.price ∧
    0 ≤ (⟨wPromo, 10, 90⟩ : PromotionPricing).final_price ∧
    (⟨wPromo, 10, 90⟩ : PromotionPricing).final_price < wProduct.price :=
  selector_price_bounds wProduct [wPromo] (by norm_num [wProduct])
    ⟨10000, by norm_num [wProduct]⟩ ⟨wPromo, 10, 90⟩
    (by norm_num [_select_best_promotion, selectStep, _calculate_discount,
      quantize2, roundHalfEven, wProduct, wPromo])

/-- C7. The selector returns none exactly when no candidate yields a
positive discount; otherwise it returns one of the candidates carrying its
own positive calculated discount, maximal among all candidates' discounts,
and of the most specific scope (PRODUCT before CATEGORY before GLOBAL)
among the candidates tied at that maximum — a larger discount wins
regardless of scope, scope only breaks ties. -/
theorem selector_best_choice (product : Product) (cs : List Promotion) :
    (_select_best_promotion product cs = none ↔
      ∀ p ∈ cs, _calculate_discount product.price p ≤ 0) ∧
    (∀ pr, _select_best_promotion product cs = some pr →
      pr.promotion ∈ cs ∧
      0 < pr.discount_per_unit ∧
      pr.discount_per_unit = _calculate_discount product.price pr.promotion ∧
      (∀ p ∈ cs, _calculate_discount product.price p ≤ pr.discount_per_unit) ∧
      (∀ p ∈ cs, _calculate_discount product.price p = pr.discount_per_unit →
        scope_priority pr.promotion.scope ≤ scope_priority p.scope)) := by
  have hinv := select_best_inv product cs
  constructor
  · constructor
    · intro h
      rw [h] at hinv
      simpa only [SelectorInv] using hinv
    · intro hall
      cases hsel : _select_best_promotion product cs with
      | none => rfl
      | some pr =>
        rw [hsel] at hinv
        simp only [SelectorInv] at hinv
        obtain ⟨hmem, hdpu, hposd, _, _, _⟩ := hinv
        have := hall pr.promotion hmem
        rw [← hdpu] at this
        exact absurd hposd (not_lt.mpr this)
  · intro pr hsel
    rw [hsel] at hinv
    simp only [SelectorInv] at hinv
    obtain ⟨hmem, hdpu, hposd, _, hmax, hscope⟩ := hinv
    exact ⟨hmem, hposd, hdpu, hmax, hscope⟩

/-- Any pricing the engine returns prices the product at its unit price
minus the discount. -/
theorem pricingFor_final (promotions : List Promotion) (product : Product)
    (pr : PromotionPricing) (h : pricingFor promotions product = some pr) :
    pr.final_price = product.price - pr.discount_per_unit := by
  have hinv := select_best_inv product (candidatesFor promotions product)
  unfold pricingFor at h
  rw [h] at hinv
  simp only [SelectorInv] at hinv
  exact hinv.2.2.2.1

theorem discountedUnitPrice_eq (promotions : List Promotion)
    (product : Product) :
    discountedUnitPrice promotions product =
      product.price - discountPerUnit promotions product := by
  unfold discountedUnitPrice discountPerUnit
  cases h : pricingFor promotions product with
  | none => simp
  | some pr => exact pricingFor_final promotions product pr h

theorem foldl_add_eq_sum (f : Product × Nat → ℚ) :
    ∀ (lines : List (Product × Nat)) (c : ℚ),
      lines.foldl (fun acc l => acc + f l) c = c + (lines.map f).sum := by
  intro lines
  induction lines with
  | nil => intro c; simp
  | cons x xs ih =>
    intro c
    simp only [List.foldl_cons, List.map_cons, List.sum_cons, ih]
    ring

theorem checkoutItem_total_price (promotions : List Promotion)
    (product : Product) (quantity : Nat) :
    (checkoutItem promotions product quantity).total_price =
      product.price * (quantity : ℚ) -
      discountPerUnit promotions product * (quantity : ℚ) := by
  simp only [checkoutItem]
  rw [discountedUnitPrice_eq]
  ring

theorem items_total_sum (promotions : List Promotion)
    (lines : List (Product × Nat)) :
    ((lines.map (fun l => checkoutItem promotions l.1 l.2)).map
        OrderItem.total_price).sum =
      lines.foldl (fun acc l => acc + l.1.price * (l.2 : ℚ)) 0 -
      lines.foldl
        (fun acc l => acc + discountPerUnit promotions l.1 * (l.2 : ℚ)) 0 := by
  rw [foldl_add_eq_sum (fun l => l.1.price * (l.2 : ℚ)) lines 0,
    foldl_add_eq_sum (fun l => discountPerUnit promotions l.1 * (l.2 : ℚ))
      lines 0]
  simp only [zero_add]
  induction lines with
  | nil => simp
  | cons x xs ih =>
    simp only [List.map_cons, List.sum_cons, ih, checkoutItem_total_price]
    ring

/-- C8. Every order start_checkout persists satisfies the round-trip
identities: the sum of its items' total_price equals subtotal minus
discount, the grand total is subtotal minus discount plus tax plus
shipping (both zero here), and the total is strictly positive — a cart
whose computed total is not positive is rejected and never becomes an
order. -/
theorem checkout_totals (catalog : List Product) (promotions : List Promotion)
    (cart : List CartLine) (has_user : Bool) (intent_id : String)
    (order : Order) (items : List OrderItem)
    (h : start_checkout catalog promotions cart has_user intent_id =
      Except.ok (order, items)) :
    (items.map OrderItem.total_price).sum =
        order.subtotal_amount - order.discount_amount ∧
    order.total_amount = order.subtotal_amount - order.discount_amount +
        order.tax_amount + order.shipping_amount ∧
    0 < order.total_amount := by
  unfold start_checkout at h
  cases hv : validate_cart catalog cart with
  | error e =>
    rw [hv] at h
    simp [Bind.bind, Except.bind] at h
  | ok lines =>
    rw [hv] at h
    simp only [Bind.bind, Except.bind] at h
    split_ifs at h with ht
    simp only [Except.ok.injEq, Prod.mk.injEq] at h
    obtain ⟨horder, hitems⟩ := h
    subst horder
    subst hitems
    refine ⟨items_total_sum promotions lines, by simp, ?_⟩
    simpa using not_le.mp ht

/-- The order the witness checkout produces: subtotal 200.00, no discount,
total 200.00. -/
def wCheckoutOrder : Order :=
  ⟨OrderStatus.PENDING_PAYMENT, FulfillmentStatus.PENDING, false,
    200, 0, 0, 0, 200, "pi_w", "", false⟩

/-- The single item of the witness checkout. -/
def wCheckoutItems : List OrderItem := [⟨1, "P", 100, 2, 200, 0⟩]

/-- Witness for C8: a two-unit cart of the 100.00 product with no
promotions produces exactly the witness order and items, so the totals
theorem applies to them. -/
theorem checkout_totals_witness :
    (wCheckoutItems.map OrderItem.total_price).sum =
        wCheckoutOrder.subtotal_amount - wCheckoutOrder.discount_amount ∧
    wCheckoutOrder.total_amount = wCheckoutOrder.subtotal_amount -
        wCheckoutOrder.discount_amount + wCheckoutOrder.tax_amount +
        wCheckoutOrder.shipping_amount ∧
    0 < wCheckoutOrder.total_amount :=
  checkout_totals [wProduct] [] [⟨1, 2⟩] false "pi_w" wCheckoutOrder
    wCheckoutItems (by
      have hv : validate_cart [wProduct] [⟨1, 2⟩] =
          Except.ok [(wProduct, 2)] := by
        simp [validate_cart, aggregateCart, addLine, findProduct,
          validCartLine, wProduct, List.find?, List.filterMap_cons]
      unfold start_checkout
      rw [hv]
      simp only [Bind.bind, Except.bind]
      norm_num [checkoutItem, discountedUnitPrice, discountPerUnit,
        pricingFor, candidatesFor, _select_best_promotion, wProduct,
        wCheckoutOrder, wCheckoutItems])

/-- The resolved aggregated lines validate_cart works through. -/
def resolvedLines (catalog : List Product) (cart : List CartLine) :
    List (Product × Nat) :=
  (aggregateCart cart).filterMap (fun p =>
    (findProduct catalog p.1).map (fun product => (product, p.2.toNat)))

theorem validate_cart_no_insufficient (catalog : List Product)
    (cart : List CartLine)
    (hle : ∀ l ∈ aggregateCart cart, ∀ p, findProduct catalog l.1 = some p →
      l.2.toNat ≤ p.stock) :
    ∀ pid, validate_cart catalog cart ≠
      Except.error (CheckoutError.insufficient_stock pid) := by
  intro pid hcontra
  simp only [validate_cart] at hcontra
  split_ifs at hcontra with h1 h2 h3
  · exact absurd hcontra (by simp)
  · exact absurd hcontra (by simp)
  · exact absurd hcontra (by simp)
  · cases hf : List.find?
        (fun l => decide (l.1.stock < l.2))
        ((aggregateCart cart).filterMap (fun p =>
          (findProduct catalog p.1).map (fun product =>
            (product, p.2.toNat)))) with
    | none => rw [hf] at hcontra; exact absurd hcontra (by simp)
    | some l =>
      rw [hf] at hcontra
      have hmem := List.mem_of_find?_eq_some hf
      have hpred := List.find?_some hf
      obtain ⟨a, ha, hmap⟩ := List.mem_filterMap.mp hmem
      rw [Option.map_eq_some'] at hmap
      obtain ⟨p, hp, hpl⟩ := hmap
      subst hpl
      simp only [decide_eq_true_eq] at hpred
      exact absurd hpred (not_lt.mpr (hle a ha p hp))

theorem start_checkout_error_of_validate (catalog : List Product)
    (promotions : List Promotion) (cart : List CartLine) (has_user : Bool)
    (intent_id : String) (e : CheckoutError)
    (hv : validate_cart catalog cart = Except.error e) :
    start_checkout catalog promotions cart has_user intent_id =
      Except.error e := by
  unfold start_checkout
  rw [hv]
  rfl

theorem validate_cart_insufficient_of_short (catalog : List Product)
    (cart : List CartLine)
    (hvalid : ∀ line ∈ cart, validCartLine line = true)
    (hfound : ∀ l ∈ aggregateCart cart,
      (findProduct catalog l.1).isSome = true)
    (hex : ∃ l ∈ aggregateCart cart, ∃ p, findProduct catalog l.1 = some p ∧
      p.stock < l.2.toNat) :
    ∃ pid, validate_cart catalog cart =
      Except.error (CheckoutError.insufficient_stock pid) := by
  have h1 : cart.any (fun line => ! validCartLine line) = false := by
    rw [List.any_eq_false]
    intro line hline
    simp [hvalid line hline]
  have h2 : cart.isEmpty = false := by
    obtain ⟨l, hl, _⟩ := hex
    cases cart with
    | nil => simp [aggregateCart] at hl
    | cons x xs => rfl
  have h3 : (aggregateCart cart).any
      (fun p => (findProduct catalog p.1).isNone) = false := by
    rw [List.any_eq_false]
    intro l hl
    have := hfound l hl
    cases hfp : findProduct catalog l.1 with
    | none => rw [hfp] at this; simp at this
    | some p => simp [hfp]
  have hfind : (List.find? (fun l => decide (l.1.stock < l.2))
      (resolvedLines catalog cart)).isSome = true := by
    rw [List.find?_isSome]
    obtain ⟨l, hl, p, hp, hshort⟩ := hex
    refine ⟨(p, l.2.toNat), ?_, by simpa using hshort⟩
    exact List.mem_filterMap.mpr ⟨l, hl, by rw [hp]; rfl⟩
  simp only [validate_cart]
  rw [if_neg (by simp [h1]), if_neg (by simp [h2]), if_neg (by simp [h3])]
  obtain ⟨l', hl'⟩ := Option.isSome_iff_exists.mp hfind
  rw [show List.find? (fun l => decide (l.1.stock < l.2))
      ((aggregateCart cart).filterMap (fun p =>
        (findProduct catalog p.1).map (fun product =>
          (product, p.2.toNat)))) = some l' from hl']
  exact ⟨l'.1.pid, rfl⟩

/-- C9. With every cart line within bounds and every aggregated product id
resolving to an active product: when each aggregated quantity is at most
the product's current stock (the boundary quantity = stock included), the
checkout never fails with the insufficient-stock error; when some
aggregated quantity strictly exceeds its product's stock, the checkout
fails with exactly the insufficient-stock validation error, so no order is
persisted. -/
theorem stock_precheck_boundary (catalog : List Product)
    (promotions : List Promotion) (cart : List CartLine) (has_user : Bool)
    (intent_id : String)
    (hvalid : ∀ line ∈ cart, validCartLine line = true)
    (hfound : ∀ l ∈ aggregateCart cart,
      (findProduct catalog l.1).isSome = true) :
    ((∀ l ∈ aggregateCart cart, ∀ p, findProduct catalog l.1 = some p →
        l.2.toNat ≤ p.stock) →
      ∀ pid, start_checkout catalog promotions cart has_user intent_id ≠
        Except.error (CheckoutError.insufficient_stock pid)) ∧
    ((∃ l ∈ aggregateCart cart, ∃ p, findProduct catalog l.1 = some p ∧
        p.stock < l.2.toNat) →
      ∃ pid, start_checkout catalog promotions cart has_user intent_id =
        Except.error (CheckoutError.insufficient_stock pid)) := by
  constructor
  · intro hle pid hcontra
    unfold start_checkout at hcontra
    cases hv : validate_cart catalog cart with
    | error e =>
      rw [hv] at hcontra
      simp only [Bind.bind, Except.bind, Except.error.injEq] at hcontra
      exact validate_cart_no_insufficient catalog cart hle pid
        (by rw [hv, hcontra])
    | ok lines =>
      rw [hv] at hcontra
      simp only [Bind.bind, Except.bind] at hcontra
      split_ifs at hcontra
      exact absurd hcontra (by simp)
  · intro hex
    obtain ⟨pid, hpid⟩ :=
      validate_cart_insufficient_of_short catalog cart hvalid hfound hex
    exact ⟨pid, start_checkout_error_of_validate catalog promotions cart
      has_user intent_id _ hpid⟩

/-- Witness for C9: the single-product catalog with stock 5 and a cart
requesting exactly 5 — both hypotheses hold and the theorem applies. -/
theorem stock_precheck_boundary_witness :
    ((∀ l ∈ aggregateCart [(⟨1, 5⟩ : CartLine)], ∀ p,
        findProduct [wProduct] l.1 = some p → l.2.toNat ≤ p.stock) →
      ∀ pid, start_checkout [wProduct] [] [⟨1, 5⟩] false "pi_w" ≠
        Except.error (CheckoutError.insufficient_stock pid)) ∧
    ((∃ l ∈ aggregateCart [(⟨1, 5⟩ : CartLine)], ∃ p,
        findProduct [wProduct] l.1 = some p ∧ p.stock < l.2.toNat) →
      ∃ pid, start_checkout [wProduct] [] [⟨1, 5⟩] false "pi_w" =
        Except.error (CheckoutError.insufficient_stock pid)) :=
  stock_precheck_boundary [wProduct] [] [⟨1, 5⟩] false "pi_w"
    (by
      intro line hline
      simp only [List.mem_singleton] at hline
      subst hline
      rfl)
    (by
      intro l hl
      simp [aggregateCart, addLine] at hl
      subst hl
      simp [findProduct, wProduct])

/-- C10. Field-level bounds on cart lines: a cart containing any line with
quantity below 1 or above 50 is rejected with the invalid-quantity
validation error before any order is persisted, and every cart a
successful checkout accepts has all line quantities within [1, 50] — a
single line can never request more than 50 units. -/
theorem cart_line_quantity_bounds (catalog : List Product)
    (promotions : List Promotion) (cart : List CartLine) (has_user : Bool)
    (intent_id : String) :
    ((∃ line ∈ cart, line.quantity < 1 ∨ 50 < line.quantity) →
      start_checkout catalog promotions cart has_user intent_id =
        Except.error CheckoutError.invalid_quantity) ∧
    (∀ order items,
      start_checkout catalog promotions cart has_user intent_id =
        Except.ok (order, items) →
      ∀ line ∈ cart, 1 ≤ line.quantity ∧ line.quantity ≤ 50) := by
  constructor
  · intro hex
    obtain ⟨line, hline, hbad⟩ := hex
    have hany : cart.any (fun l => ! validCartLine l) = true := by
      rw [List.any_eq_true]
      refine ⟨line, hline, ?_⟩
      simp only [validCartLine, Bool.not_eq_true']
      rcases hbad with h | h
      · simp [not_le.mpr h]
      · simp [not_le.mpr h]
    have hv : validate_cart catalog cart =
        Except.error CheckoutError.invalid_quantity := by
      simp only [validate_cart]
      rw [if_pos (by simp [hany])]
    exact start_checkout_error_of_validate catalog promotions cart has_user
      intent_id _ hv
  · intro order items hok line hline
    by_contra hbad
    rw [not_and_or] at hbad
    have hbad' : line.quantity < 1 ∨ 50 < line.quantity := by
      rcases hbad with h | h
      · exact Or.inl (not_le.mp h)
      · exact Or.inr (not_le.mp h)
    have hany : cart.any (fun l => ! validCartLine l) = true := by
      rw [List.any_eq_true]
      refine ⟨line, hline, ?_⟩
      simp only [validCartLine, Bool.not_eq_true']
      rcases hbad' with h | h
      · simp [not_le.mpr h]
      · simp [not_le.mpr h]
    have hv : validate_cart catalog cart =
        Except.error CheckoutError.invalid_quantity := by
      simp only [validate_cart]
      rw [if_pos (by simp [hany])]
    rw [start_checkout_error_of_validate catalog promotions cart has_user
      intent_id _ hv] at hok
    exact absurd hok (by simp)
